import Mathlib

/-!
Shallow embedding of the NVDA OCR add-on's HOCR parsing core
(`addon/globalPlugins/ocr/__init__.py`): the `HocrParser` streaming
parser, the `OcrTextInfo` offset-addressable text view, and the
coordinate transform from OCR-image pixel space to screen space.

Python specifics modelled explicitly:
* expat delivers the markup to `HocrParser.__init__` as a stream of
  start-element / end-element / character-data handler calls; the event
  stream is the parser input here, and the external expat tokenizer is
  modelled by its outcome (`Except ExpatError (List SaxEvent)`). Note that
  `__init__` calls `parser.Parse(xml)` without `isfinal=True`, so expat
  reports an error only for defects inside the consumed input; an input
  that merely ends too early (an unterminated tag) tokenizes to success
  with the events of its well-formed prefix.
* Python exceptions (`KeyError`, `AttributeError`, `ValueError`,
  `UnboundLocalError`) are modelled by `Except PyError`; an exception
  raised inside an expat handler aborts `Parse` and propagates.
* Python floats are modelled by `ℚ`; for the arithmetic this code performs
  (adding integers and halving integers of on-screen magnitude) IEEE
  doubles are exact, so the rational model agrees with float semantics.
* `int(x)` on a float truncates toward zero (`pyInt`); `str.split(" ")`,
  `str.isspace` and `int(token)` are modelled character by character
  (`pySplitSpace`, `pyIsSpace`, `pyParseInt`).
-/

/-- Error raised by the external expat XML tokenizer when it hits a markup
defect inside the input consumed so far. Since `__init__` calls
`parser.Parse(xml)` without `isfinal=True`, end-of-input well-formedness
checks (e.g. for unterminated tags) are deferred and never performed: such
inputs tokenize to success with the events of the parsed prefix. -/
structure ExpatError where
  msg : String
deriving DecidableEq

/-- Python exceptions that the embedded plugin code can raise. -/
inductive PyError where
  | expatFailure (e : ExpatError)
  | keyError
  | attributeError
  | valueError
  | unboundLocalError
deriving DecidableEq

/-- SAX-style events delivered by expat to the registered handlers, in
document order. -/
inductive SaxEvent where
  | startElement (tag : String) (attrs : List (String × String))
  | endElement (tag : String)
  | charData (data : String)
deriving DecidableEq

/-- `OcrWord = namedtuple("OcrWord", ("offset", "left", "top"))`: starting
character offset in the flattened text, and screen-space coordinates. -/
structure OcrWord where
  offset : ℕ
  left : ℚ
  top : ℚ
deriving DecidableEq

/-- State of a `HocrParser` instance: the attributes set in `__init__` and
mutated by the expat handlers. -/
structure ParserState where
  leftCoordOffset : ℚ
  topCoordOffset : ℚ
  textList : List String
  textLen : ℕ
  lines : List ℕ
  words : List OcrWord
  hasBlockHadContent : Bool
deriving DecidableEq

/-- Python `str.isspace` on one character, for the ASCII whitespace
characters (the only ones arising here). -/
def pyIsSpaceChar (c : Char) : Bool :=
  (c == ' ') || (c == '\t') || (c == '\n') || (c == '\r') ||
    (c == '\x0b') || (c == '\x0c')

/-- Python `str.isspace`: true iff the string is nonempty and every
character is whitespace. -/
def pyIsSpace (s : String) : Bool :=
  !s.data.isEmpty && s.data.all pyIsSpaceChar

/-- One step of Python `str.split(" ")`: splitting at every single space,
keeping empty pieces between consecutive spaces. -/
def splitSpaceStep (c : Char) : List (List Char) → List (List Char)
  | [] => [[c]]
  | acc :: accs => if c = ' ' then [] :: acc :: accs else (c :: acc) :: accs

/-- Python `s.split(" ")`. -/
def pySplitSpace (s : String) : List String :=
  (s.data.foldr splitSpaceStep [[]]).map List.asString

/-- Value of a decimal digit character. -/
def digitVal (c : Char) : Option ℕ :=
  if c.isDigit then some (c.toNat - 48) else none

/-- Decimal digit run to a natural number; `none` when empty or a non-digit
occurs. -/
def digitsToNat (cs : List Char) : Option ℕ :=
  if cs.isEmpty then none
  else cs.foldlM (fun acc c => (digitVal c).map fun d => acc * 10 + d) 0

/-- Python `int(token)` on a whitespace-free token: optional sign, then
decimal digits. (Python additionally strips surrounding whitespace and
allows underscores between digits; the tokens produced by `split(" ")` on
a bbox title never contain either.) -/
def pyParseInt (s : String) : Option ℤ :=
  match s.data with
  | '-' :: rest => (digitsToNat rest).map fun n => -(n : ℤ)
  | '+' :: rest => (digitsToNat rest).map fun n => (n : ℤ)
  | cs => (digitsToNat cs).map fun n => (n : ℤ)

/-- Python `int(q)` on a float value: truncation toward zero. On a rational
in lowest terms this is the truncating division of numerator by
denominator. -/
def pyInt (q : ℚ) : ℤ := q.num.tdiv q.den

/-- Python `s[start:stop]` for nonnegative bounds (clamping semantics). -/
def pySlice (s : String) (start stop : ℕ) : String :=
  ((s.data.drop start).take (stop - start)).asString

/-- `IMAGE_RESIZE_FACTOR = 2` (the factor the captured image was enlarged
by before OCR; bbox coordinates are divided by it). -/
def IMAGE_RESIZE_FACTOR : ℚ := 2

/-- Lookup in the expat attribute dictionary (`attrs.get(key)`). -/
def lookupAttr (attrs : List (String × String)) (key : String) : Option String :=
  (attrs.find? fun kv => kv.1 == key).map fun kv => kv.2

namespace HocrParser

/-- `HocrParser._startElement`. `attrs["class"]` raises `KeyError` when the
attribute is missing; a missing `title` makes `title.split(" ")` raise
`AttributeError` on `None`; unpacking a split of length other than five,
or `int()` on a non-numeric token, raises `ValueError`. -/
def startElement (st : ParserState) (tag : String)
    (attrs : List (String × String)) : Except PyError ParserState :=
  if tag = "p" ∨ tag = "div" then
    .ok { st with hasBlockHadContent := false }
  else if tag = "span" then
    match lookupAttr attrs "class" with
    | none => .error .keyError
    | some cls =>
      if cls = "ocr_line" then
        .ok { st with lines := st.lines ++ [st.textLen] }
      else if cls = "ocr_word" then
        match lookupAttr attrs "title" with
        | none => .error .attributeError
        | some title =>
          match pySplitSpace title with
          | [_, l, t, _, _] =>
            match pyParseInt l, pyParseInt t with
            | some li, some ti =>
              .ok { st with words := st.words ++
                [⟨st.textLen,
                  st.leftCoordOffset + (li : ℚ) / IMAGE_RESIZE_FACTOR,
                  st.topCoordOffset + (ti : ℚ) / IMAGE_RESIZE_FACTOR⟩] }
            | _, _ => .error .valueError
          | _ => .error .valueError
      else .ok st
  else .ok st

/-- `HocrParser._charData`: entirely-whitespace data is dropped before a
block has content, otherwise replaced by a single space which is dropped
after an existing trailing space; all other data is appended verbatim. -/
def charData (st : ParserState) (data : String) : ParserState :=
  if pyIsSpace data then
    if !st.hasBlockHadContent then st
    else if st.textList.getLast? = some " " then st
    else { st with hasBlockHadContent := true,
                   textList := st.textList ++ [" "],
                   textLen := st.textLen + 1 }
  else
    { st with hasBlockHadContent := true,
              textList := st.textList ++ [data],
              textLen := st.textLen + data.length }

/-- `HocrParser._endElement` does nothing. -/
def endElement (st : ParserState) (_tag : String) : ParserState := st

/-- Dispatch of one expat event to the registered handler. -/
def processEvent (st : ParserState) : SaxEvent → Except PyError ParserState
  | .startElement tag attrs => startElement st tag attrs
  | .endElement tag => .ok (endElement st tag)
  | .charData data => .ok (charData st data)

/-- Handler state as initialized in `HocrParser.__init__` before
`parser.Parse(xml)` runs. -/
def initState (leftCoordOffset topCoordOffset : ℚ) : ParserState :=
  { leftCoordOffset := leftCoordOffset, topCoordOffset := topCoordOffset,
    textList := [], textLen := 0, lines := [], words := [],
    hasBlockHadContent := false }

/-- Event loop of `parser.Parse(xml)`: the handlers run over the event
stream in document order; a Python exception raised in a handler aborts
the parse and propagates. -/
def runEvents (st : ParserState) : List SaxEvent → Except PyError ParserState
  | [] => .ok st
  | ev :: rest =>
    match processEvent st ev with
    | .ok st' => runEvents st' rest
    | .error e => .error e

/-- `parser.Parse(xml)` starting from the freshly initialized handler
state. -/
def run (evs : List SaxEvent) (leftCoordOffset topCoordOffset : ℚ) :
    Except PyError ParserState :=
  runEvents (initState leftCoordOffset topCoordOffset) evs

/-- `HocrParser.__init__` seen from its caller, over the outcome of the
non-final `parser.Parse(xml)` call: when expat reports an error (a defect
inside the consumed input), `__init__` installs no exception handling, so
it propagates and the caller receives no parser object; otherwise — and
this includes markup that merely ends too early, since without
`isfinal=True` no end-of-input check runs — the delivered event stream is
processed by the handlers. -/
def initFromExpat (tokenized : Except ExpatError (List SaxEvent))
    (leftCoordOffset topCoordOffset : ℚ) : Except PyError ParserState :=
  match tokenized with
  | .error e => .error (.expatFailure e)
  | .ok evs => run evs leftCoordOffset topCoordOffset

end HocrParser

/-- Final flattened text: `self.text = "".join(self._textList)`. -/
def parserText (st : ParserState) : String := String.join st.textList

/-- Scan loop shared by `_getLineOffsets` and `_getWordOffsets`: walk the
boundary list with a running `start` (initially 0); at the first boundary
strictly greater than `offset` return `(start, boundary)`; if none is
greater return `(start, storyLength)`. -/
def scanBoundaries (slen offset : ℕ) : List ℕ → ℕ → ℕ × ℕ
  | [], start => (start, slen)
  | e :: rest, start =>
    if offset < e then (start, e) else scanBoundaries slen offset rest e

/-- Loop of `_getPointFromOffset`: `cur` is the Python local variable
`word`, `none` while it is still unbound. Breaking on the first iteration
reads the unbound local (`UnboundLocalError`); exhausting the list without
a break runs the `else:` branch, which returns the origin point. -/
def pointLoop (origin : ℤ × ℤ) (offset : ℕ) :
    List OcrWord → Option OcrWord → Except PyError (ℤ × ℤ)
  | [], _ => .ok origin
  | w :: rest, cur =>
    if offset < w.offset then
      match cur with
      | none => .error .unboundLocalError
      | some word => .ok (pyInt word.left, pyInt word.top)
    else pointLoop origin offset rest (some w)

/-- `OcrTextInfo`: view over a parsed document. `obj` and `position` stand
for the host navigator object and bookmark, which these queries never
consult. -/
structure OcrTextInfo where
  obj : ℕ
  position : ℕ
  parser : ParserState
deriving DecidableEq

namespace OcrTextInfo

/-- `copy`: a new view instance on the same parser. -/
def copy (ti : OcrTextInfo) : OcrTextInfo :=
  { obj := ti.obj, position := ti.position, parser := ti.parser }

/-- `_getStoryLength`. -/
def storyLength (ti : OcrTextInfo) : ℕ := ti.parser.textLen

/-- `_getTextRange`: `self._parser.text[start:end]`. -/
def textRange (ti : OcrTextInfo) (start stop : ℕ) : String :=
  pySlice (parserText ti.parser) start stop

/-- `_getLineOffsets`. -/
def lineRange (ti : OcrTextInfo) (offset : ℕ) : ℕ × ℕ :=
  scanBoundaries ti.parser.textLen offset ti.parser.lines 0

/-- `_getWordOffsets`: the same scan over the word offsets. -/
def wordRange (ti : OcrTextInfo) (offset : ℕ) : ℕ × ℕ :=
  scanBoundaries ti.parser.textLen offset (ti.parser.words.map OcrWord.offset) 0

/-- `_getPointFromOffset`. -/
def pointForOffset (ti : OcrTextInfo) (offset : ℕ) : Except PyError (ℤ × ℤ) :=
  pointLoop (pyInt ti.parser.leftCoordOffset, pyInt ti.parser.topCoordOffset)
    offset ti.parser.words none

end OcrTextInfo

/-- Equality of `Except` results is decidable, so concrete runs can be
checked by evaluation. -/
instance {ε α : Type} [DecidableEq ε] [DecidableEq α] :
    DecidableEq (Except ε α) := fun x y =>
  match x, y with
  | .ok a, .ok b =>
    if h : a = b then .isTrue (by rw [h]) else .isFalse (by simp [h])
  | .error a, .error b =>
    if h : a = b then .isTrue (by rw [h]) else .isFalse (by simp [h])
  | .ok _, .error _ => .isFalse (by simp)
  | .error _, .ok _ => .isFalse (by simp)

/-- Result of a successful parse, defaulting to the fresh handler state on
failure (each use below is backed by a lemma showing which case applies). -/
def runOr (evs : List SaxEvent) (left top : ℚ) : ParserState :=
  match HocrParser.run evs left top with
  | .ok p => p
  | .error _ => HocrParser.initState left top

/-- Document with one word ("hi", bbox left 20 top 20) captured at origin
(100, 50): the word's screen point is (100 + 20/2, 50 + 20/2) = (110, 60). -/
def c1evs : List SaxEvent :=
  [SaxEvent.startElement "div" [],
   SaxEvent.startElement "span" [("class", "ocr_word"), ("title", "bbox 20 20 30 30")],
   SaxEvent.charData "hi",
   SaxEvent.endElement "span",
   SaxEvent.endElement "div"]

/-- Evaluation of the parse of `c1evs`. -/
theorem run_c1evs_eq : HocrParser.run c1evs 100 50 =
    Except.ok
      { leftCoordOffset := 100, topCoordOffset := 50, textList := ["hi"],
        textLen := 2, lines := [], words := [⟨0, 110, 60⟩],
        hasBlockHadContent := true } := by
  simp +decide [c1evs, HocrParser.run, HocrParser.runEvents,
    HocrParser.processEvent, HocrParser.startElement, HocrParser.charData,
    HocrParser.endElement, HocrParser.initState, lookupAttr, pySplitSpace,
    splitSpaceStep, pyParseInt, digitsToNat, digitVal, pyIsSpace,
    pyIsSpaceChar, IMAGE_RESIZE_FACTOR, List.find?, List.foldlM,
    Option.map, Option.bind, List.map, List.foldr, List.asString,
    String.length, List.all, List.isEmpty, List.getLast?, List.append]
  norm_num

/-- Document whose only word marker has the malformed title
"bbox 10 20 30" (three numbers instead of four); further content follows
the bad word. -/
def c2evs : List SaxEvent :=
  [SaxEvent.startElement "div" [],
   SaxEvent.startElement "span" [("class", "ocr_line")],
   SaxEvent.charData "Hello",
   SaxEvent.startElement "span" [("class", "ocr_word"), ("title", "bbox 10 20 30")],
   SaxEvent.charData "rest",
   SaxEvent.endElement "span",
   SaxEvent.endElement "span",
   SaxEvent.endElement "div"]

/-- Document whose first (and only) word starts at offset 2: two characters
of text precede the word marker. -/
def c3evs : List SaxEvent :=
  [SaxEvent.startElement "div" [],
   SaxEvent.charData "ab",
   SaxEvent.startElement "span" [("class", "ocr_word"), ("title", "bbox 20 20 30 30")],
   SaxEvent.charData "cd",
   SaxEvent.endElement "span",
   SaxEvent.endElement "div"]

/-- Document with text but no word markers at all. -/
def c3emptyEvs : List SaxEvent :=
  [SaxEvent.startElement "div" [],
   SaxEvent.charData "ab",
   SaxEvent.endElement "div"]

/-- Single block whose character data is "  Hello   world  ". -/
def c4evs : List SaxEvent :=
  [SaxEvent.startElement "div" [],
   SaxEvent.charData "  Hello   world  ",
   SaxEvent.endElement "div"]

/-- Processing a concatenated event stream processes the first part, then
the second from the reached state; an error in the first part is final. -/
theorem runEvents_append (st : ParserState) (xs ys : List SaxEvent) :
    HocrParser.runEvents st (xs ++ ys) =
      match HocrParser.runEvents st xs with
      | .ok st' => HocrParser.runEvents st' ys
      | .error e => .error e := by
  induction xs generalizing st with
  | nil => rfl
  | cons ev rest ih =>
    simp only [List.cons_append, HocrParser.runEvents]
    cases HocrParser.processEvent st ev with
    | ok st' => exact ih st'
    | error e => rfl

/-- A word-marker span whose title does not split into exactly five
space-separated tokens makes `_startElement` raise `ValueError` at the
tuple unpacking. -/
theorem startElement_bad_title (st : ParserState)
    (attrs : List (String × String)) (title : String)
    (hcls : lookupAttr attrs "class" = some "ocr_word")
    (htl : lookupAttr attrs "title" = some title)
    (hlen : (pySplitSpace title).length ≠ 5) :
    HocrParser.startElement st "span" attrs = Except.error PyError.valueError := by
  simp +decide only [HocrParser.startElement, hcls, htl]
  rcases hsp : pySplitSpace title with _ | ⟨a, _ | ⟨b, _ | ⟨c, _ | ⟨d, _ | ⟨e, _ | ⟨f, r⟩⟩⟩⟩⟩⟩
  · rfl
  · rfl
  · rfl
  · rfl
  · rfl
  · rw [hsp] at hlen; simp at hlen
  · rfl

/-- When every boundary is at most the query offset, the scan falls off the
end of the list: it returns the last boundary (the running start, initially
`start`) paired with the story length. -/
theorem scanBoundaries_all_le (slen off : ℕ) :
    ∀ (bs : List ℕ) (start : ℕ), (∀ b ∈ bs, b ≤ off) →
      scanBoundaries slen off bs start = (bs.getLastD start, slen) := by
  intro bs
  induction bs with
  | nil => intro start _; rfl
  | cons e rest ih =>
    intro start h
    have he : e ≤ off := h e (List.mem_cons_self e rest)
    have : ¬ off < e := not_lt.mpr he
    simp only [scanBoundaries, if_neg this, List.getLastD_cons]
    exact ih e fun b hb => h b (List.mem_cons_of_mem e hb)

/-- When the boundary list is a prefix of values at most the offset followed
by a first strictly greater boundary `e`, the scan stops at `e` and pairs it
with the boundary just before it (the running start for an empty prefix). -/
theorem scanBoundaries_found (slen off : ℕ) (e : ℕ) (post : List ℕ)
    (he : off < e) :
    ∀ (pre : List ℕ) (start : ℕ), (∀ b ∈ pre, b ≤ off) →
      scanBoundaries slen off (pre ++ e :: post) start = (pre.getLastD start, e) := by
  intro pre
  induction pre with
  | nil => intro start _; simp only [List.nil_append, scanBoundaries, if_pos he]; rfl
  | cons p rest ih =>
    intro start h
    have hp : p ≤ off := h p (List.mem_cons_self p rest)
    simp only [List.cons_append, scanBoundaries, if_neg (not_lt.mpr hp),
      List.getLastD_cons]
    exact ih p fun b hb => h b (List.mem_cons_of_mem p hb)

/-- Appending one element above everything preserves pairwise ordering. -/
theorem pairwise_append_one {α : Type} {R : α → α → Prop} {l : List α} {a : α}
    (hp : l.Pairwise R) (hb : ∀ x ∈ l, R x a) : (l ++ [a]).Pairwise R := by
  rw [List.pairwise_append]
  refine ⟨hp, List.pairwise_singleton _ _, ?_⟩
  intro x hx y hy
  rw [List.mem_singleton] at hy
  subst hy
  exact hb x hx

/-- Invariants maintained by the parser state: line boundaries and word
offsets are non-decreasing and never exceed the current text length. -/
def ModelInv (st : ParserState) : Prop :=
  st.lines.Pairwise (· ≤ ·) ∧
  st.words.Pairwise (fun u v => u.offset ≤ v.offset) ∧
  (∀ b ∈ st.lines, b ≤ st.textLen) ∧
  (∀ w ∈ st.words, w.offset ≤ st.textLen)

/-- One handler call preserves the model invariants. -/
theorem ModelInv.step {st st' : ParserState} {ev : SaxEvent}
    (hinv : ModelInv st) (h : HocrParser.processEvent st ev = Except.ok st') :
    ModelInv st' := by
  obtain ⟨hl, hw, hbl, hbw⟩ := hinv
  cases ev with
  | endElement tag =>
    simp only [HocrParser.processEvent, HocrParser.endElement] at h
    injection h with h'
    subst h'
    exact ⟨hl, hw, hbl, hbw⟩
  | charData data =>
    simp only [HocrParser.processEvent] at h
    injection h with h'
    subst h'
    unfold HocrParser.charData
    split
    · split
      · exact ⟨hl, hw, hbl, hbw⟩
      · split
        · exact ⟨hl, hw, hbl, hbw⟩
        · exact ⟨hl, hw,
            fun b hb => le_trans (hbl b hb) (Nat.le_succ _),
            fun w hw' => le_trans (hbw w hw') (Nat.le_succ _)⟩
    · exact ⟨hl, hw,
        fun b hb => le_trans (hbl b hb) (Nat.le_add_right _ _),
        fun w hw' => le_trans (hbw w hw') (Nat.le_add_right _ _)⟩
  | startElement tag attrs =>
    simp only [HocrParser.processEvent] at h
    unfold HocrParser.startElement at h
    split at h
    · injection h with h'
      subst h'
      exact ⟨hl, hw, hbl, hbw⟩
    · split at h
      · split at h
        · exact Except.noConfusion h
        · split at h
          · injection h with h'
            subst h'
            refine ⟨pairwise_append_one hl hbl, hw, ?_, hbw⟩
            intro b hb
            rcases List.mem_append.mp hb with hb' | hb'
            · exact hbl b hb'
            · rw [List.mem_singleton] at hb'
              subst hb'
              exact le_refl _
          · split at h
            · split at h
              · exact Except.noConfusion h
              · split at h
                · split at h
                  · injection h with h'
                    subst h'
                    refine ⟨hl, pairwise_append_one hw hbw, hbl, ?_⟩
                    intro w hw'
                    rcases List.mem_append.mp hw' with hw'' | hw''
                    · exact hbw w hw''
                    · rw [List.mem_singleton] at hw''
                      subst hw''
                      exact le_refl _
                  · exact Except.noConfusion h
                · exact Except.noConfusion h
            · injection h with h'
              subst h'
              exact ⟨hl, hw, hbl, hbw⟩
      · injection h with h'
        subst h'
        exact ⟨hl, hw, hbl, hbw⟩

/-- Running any event stream to completion preserves the model invariants. -/
theorem ModelInv.runEvents :
    ∀ (evs : List SaxEvent) (st st' : ParserState), ModelInv st →
      HocrParser.runEvents st evs = Except.ok st' → ModelInv st' := by
  intro evs
  induction evs with
  | nil =>
    intro st st' h hr
    injection hr with hr'
    subst hr'
    exact h
  | cons ev rest ih =>
    intro st st' h hr
    simp only [HocrParser.runEvents] at hr
    cases hpe : HocrParser.processEvent st ev with
    | ok st1 =>
      rw [hpe] at hr
      exact ih st1 st' (ModelInv.step h hpe) hr
    | error e =>
      rw [hpe] at hr
      exact Except.noConfusion hr

/-- The fresh handler state satisfies the model invariants. -/
theorem ModelInv.initState (left top : ℚ) :
    ModelInv (HocrParser.initState left top) :=
  ⟨List.Pairwise.nil, List.Pairwise.nil, (by intro b hb; cases hb),
    (by intro w hw; cases hw)⟩

/-- Document with three lines of 5, 7 and 8 characters: line boundaries are
recorded at offsets 5, 12 and 20, and the story length is 20. -/
def c7evs : List SaxEvent :=
  [SaxEvent.startElement "div" [],
   SaxEvent.charData "abcde",
   SaxEvent.startElement "span" [("class", "ocr_line")],
   SaxEvent.endElement "span",
   SaxEvent.charData "fghijkl",
   SaxEvent.startElement "span" [("class", "ocr_line")],
   SaxEvent.endElement "span",
   SaxEvent.charData "mnopqrst",
   SaxEvent.startElement "span" [("class", "ocr_line")],
   SaxEvent.endElement "span",
   SaxEvent.endElement "div"]

/-- Offset-addressable view over the parse of `c7evs`. -/
def c7ti : OcrTextInfo := ⟨0, 0, runOr c7evs 0 0⟩

/-- Two adjacent line markers with no text in between: both boundaries are
recorded at offset 0. -/
def c8badEvs : List SaxEvent :=
  [SaxEvent.startElement "div" [],
   SaxEvent.startElement "span" [("class", "ocr_line")],
   SaxEvent.endElement "span",
   SaxEvent.startElement "span" [("class", "ocr_line")],
   SaxEvent.endElement "span",
   SaxEvent.endElement "div"]

/-- The state `c8badEvs` parses to. -/
def c8badState : ParserState :=
  { leftCoordOffset := 0, topCoordOffset := 0, textList := [], textLen := 0,
    lines := [0, 0], words := [], hasBlockHadContent := false }

/-- Two-word document parameterized by the first word's title; the second
word starts one character later, so a query at offset 0 stops at it. -/
def c5evs (title : String) : List SaxEvent :=
  [SaxEvent.startElement "div" [],
   SaxEvent.startElement "span" [("class", "ocr_word"), ("title", title)],
   SaxEvent.charData "a",
   SaxEvent.endElement "span",
   SaxEvent.startElement "span" [("class", "ocr_word"), ("title", "bbox 90 90 99 99")],
   SaxEvent.charData "b",
   SaxEvent.endElement "span",
   SaxEvent.endElement "div"]

/-- C9: `copy()` produces a view sharing the same parsed document, and
every query (storyLength, textRange, lineRange, wordRange, pointForOffset)
on the copy returns the same result as on the original. -/
theorem c9_copy_shares_model_and_queries_agree :
    ∀ (ti : OcrTextInfo) (s e off1 off2 off3 : ℕ),
      ti.copy.parser = ti.parser ∧
      ti.copy.storyLength = ti.storyLength ∧
      ti.copy.textRange s e = ti.textRange s e ∧
      ti.copy.lineRange off1 = ti.lineRange off1 ∧
      ti.copy.wordRange off2 = ti.wordRange off2 ∧
      ti.copy.pointForOffset off3 = ti.pointForOffset off3 :=
  fun _ _ _ _ _ _ => ⟨rfl, rfl, rfl, rfl, rfl, rfl⟩

/-- Outcome of the external expat tokenizer on the non-well-formed markup
`<div>hello` (unterminated tag) under the non-final `Parse` call made by
`__init__`: the call returns success and fires exactly the start-element
and character-data handlers for the parsed prefix — the end-of-input check
that would reject the unterminated `div` is deferred and never performed. -/
def c6unterminatedEvs : List SaxEvent :=
  [SaxEvent.startElement "div" [],
   SaxEvent.charData "hello"]

/-- C6: evaluation of the code at the failing input. For the
non-well-formed markup `<div>hello`, `__init__` completes without any
error and hands the caller a parser object whose flattened text is
"hello" with story length 5 — a partial Document Model built from
malformed markup, which the claim says must never reach the caller. -/
theorem c6_unterminated_tag_yields_partial_model :
    HocrParser.initFromExpat (Except.ok c6unterminatedEvs) 100 50 =
      Except.ok
        { leftCoordOffset := 100, topCoordOffset := 50,
          textList := ["hello"], textLen := 5, lines := [], words := [],
          hasBlockHadContent := true } ∧
    parserText (runOr c6unterminatedEvs 100 50) = "hello" ∧
    OcrTextInfo.storyLength ⟨0, 0, runOr c6unterminatedEvs 100 50⟩ = 5 := by
  refine ⟨by decide, by decide, by decide⟩

/-- C1: evaluation of the code at the failing input. In `c1evs` (captured
at origin (100, 50)) the single word starts at offset 0 with screen point
(110, 60), yet `pointForOffset` at offset 1 — an offset at or after the
last word's offset — returns the origin (100, 50): the `for`/`else` in
`_getPointFromOffset` runs its "no matching word" branch exactly when
every word's offset is at most the query offset. -/
theorem c1_point_at_or_after_last_word_returns_origin :
    OcrTextInfo.pointForOffset ⟨0, 0, runOr c1evs 100 50⟩ 1 =
      Except.ok (100, 50) ∧
    (runOr c1evs 100 50).words.map (fun w => (pyInt w.left, pyInt w.top)) =
      [(110, 60)] := by
  constructor
  · decide
  · have hw : (runOr c1evs 100 50).words = [⟨0, 110, 60⟩] := by
      simp [runOr, run_c1evs_eq]
    rw [hw]
    decide

/-- C3: evaluation of the code at the failing input. In `c3evs` the first
word starts at offset 2, and a query at offset 0 breaks out of the loop on
the first iteration with the local `word` still unbound, raising
`UnboundLocalError` instead of returning the origin; with no words at all
(`c3emptyEvs`) the `else:` branch does return the origin (100, 50). -/
theorem c3_point_before_first_word_raises_unbound_local :
    OcrTextInfo.pointForOffset ⟨0, 0, runOr c3evs 100 50⟩ 0 =
      Except.error PyError.unboundLocalError ∧
    OcrTextInfo.pointForOffset ⟨0, 0, runOr c3emptyEvs 100 50⟩ 0 =
      Except.ok (100, 50) := by
  constructor
  · decide
  · decide

/-- C7: `lineRange` returns `(start, end)` where `end` is the first line
boundary strictly greater than the offset and `start` the preceding
boundary (the initial 0 for the first); when no boundary is greater the
result is `(lastBoundary, storyLength())`; and on the document `c7evs`
with boundaries [5, 12, 20] and story length 20, `lineRange(0) = (0, 5)`,
`lineRange(5) = (5, 12)` and `lineRange(19) = (12, 20)`. -/
theorem c7_line_range_scan :
    (∀ (ti : OcrTextInfo) (off : ℕ), (∀ b ∈ ti.parser.lines, b ≤ off) →
      ti.lineRange off = (ti.parser.lines.getLastD 0, ti.storyLength)) ∧
    (∀ (ti : OcrTextInfo) (off : ℕ) (pre : List ℕ) (e : ℕ) (post : List ℕ),
      ti.parser.lines = pre ++ e :: post → (∀ b ∈ pre, b ≤ off) → off < e →
      ti.lineRange off = (pre.getLastD 0, e)) ∧
    ((c7ti.lineRange 0 = (0, 5) ∧ c7ti.lineRange 5 = (5, 12) ∧
      c7ti.lineRange 19 = (12, 20)) ∧
      c7ti.storyLength = 20 ∧ c7ti.parser.lines = [5, 12, 20]) := by
  refine ⟨?_, ?_, by decide⟩
  · intro ti off h
    exact scanBoundaries_all_le _ _ ti.parser.lines 0 h
  · intro ti off pre e post h1 h2 h3
    unfold OcrTextInfo.lineRange
    rw [h1]
    exact scanBoundaries_found _ _ e post h3 pre 0 h2

/-- C7 witness: the no-greater-boundary conjunct at offset 25 and the
found-boundary conjunct at offset 0, both on the `c7evs` document. -/
theorem c7_line_range_scan_witness :
    ((∀ b ∈ c7ti.parser.lines, b ≤ 25) ∧
      c7ti.lineRange 25 = (c7ti.parser.lines.getLastD 0, c7ti.storyLength)) ∧
    (c7ti.parser.lines = [] ++ 5 :: [12, 20] ∧ (∀ b ∈ ([] : List ℕ), b ≤ 0) ∧
      0 < 5 ∧ c7ti.lineRange 0 = (([] : List ℕ).getLastD 0, 5)) :=
  ⟨⟨by decide, c7_line_range_scan.1 c7ti 25 (by decide)⟩,
   ⟨by decide, by decide, by decide,
    c7_line_range_scan.2.1 c7ti 0 [] 5 [12, 20] (by decide) (by decide)
      (by decide)⟩⟩

/-- C8 counterexample: the well-formed document `c8badEvs` has two adjacent
line markers with no text between them, so the recorded line-boundary
sequence is [0, 0] — not strictly increasing. -/
theorem c8_duplicate_line_boundaries_cex :
    (runOr c8badEvs 0 0).lines = [0, 0] ∧
    ¬ List.Pairwise (fun a b => a < b) (runOr c8badEvs 0 0).lines := by
  constructor
  · decide
  · decide

/-- C8 (amended): after any successful parse the line boundaries are
non-decreasing (not necessarily strictly increasing), the word offsets are
non-decreasing, and every boundary and word offset is at most the story
length. -/
theorem c8_model_invariants_amended :
    ∀ (evs : List SaxEvent) (left top : ℚ) (obj pos : ℕ) (p : ParserState),
      HocrParser.run evs left top = Except.ok p →
      p.lines.Pairwise (· ≤ ·) ∧
      (p.words.map OcrWord.offset).Pairwise (· ≤ ·) ∧
      (∀ b ∈ p.lines, b ≤ (OcrTextInfo.mk obj pos p).storyLength) ∧
      (∀ w ∈ p.words, w.offset ≤ (OcrTextInfo.mk obj pos p).storyLength) := by
  intro evs left top obj pos p h
  obtain ⟨hl, hw, hbl, hbw⟩ :=
    ModelInv.runEvents evs _ p (ModelInv.initState left top) h
  refine ⟨hl, ?_, hbl, hbw⟩
  rw [List.pairwise_map]
  exact hw

/-- C8 witness: the amended invariants instantiated on the `c8badEvs`
parse, whose equal adjacent boundaries satisfy the non-strict ordering. -/
theorem c8_model_invariants_amended_witness :
    HocrParser.run c8badEvs 0 0 = Except.ok c8badState ∧
    (c8badState.lines.Pairwise (· ≤ ·) ∧
      (c8badState.words.map OcrWord.offset).Pairwise (· ≤ ·) ∧
      (∀ b ∈ c8badState.lines, b ≤ (OcrTextInfo.mk 0 0 c8badState).storyLength) ∧
      (∀ w ∈ c8badState.words,
        w.offset ≤ (OcrTextInfo.mk 0 0 c8badState).storyLength)) :=
  ⟨by decide,
   c8_model_invariants_amended c8badEvs 0 0 0 0 c8badState (by decide)⟩

/-- C10: a `span` with no `class` attribute makes the unguarded
`attrs["class"]` lookup raise `KeyError`, aborting the whole parse, whereas
a `span` whose class is neither marker is silently ignored. -/
theorem c10_span_without_class_raises_keyerror :
    (∀ (evs1 evs2 : List SaxEvent) (left top : ℚ) (st : ParserState)
        (attrs : List (String × String)),
      HocrParser.runEvents (HocrParser.initState left top) evs1 = Except.ok st →
      lookupAttr attrs "class" = none →
      HocrParser.run (evs1 ++ SaxEvent.startElement "span" attrs :: evs2)
        left top = Except.error PyError.keyError) ∧
    (∀ (st : ParserState) (attrs : List (String × String)) (cls : String),
      lookupAttr attrs "class" = some cls → cls ≠ "ocr_line" →
      cls ≠ "ocr_word" →
      HocrParser.startElement st "span" attrs = Except.ok st) := by
  constructor
  · intro evs1 evs2 left top st attrs h1 h2
    have hse : HocrParser.startElement st "span" attrs =
        Except.error PyError.keyError := by
      simp +decide [HocrParser.startElement, h2]
    simp only [HocrParser.run, runEvents_append, h1, HocrParser.runEvents,
      HocrParser.processEvent, hse]
  · intro st attrs cls h1 h2 h3
    simp +decide [HocrParser.startElement, h1]
    rw [if_neg h2, if_neg h3]

/-- C10 witness: a span carrying only a title (no class) aborts a concrete
parse with `KeyError`; a span with the unrecognized class "ocr_par" leaves
the state unchanged. -/
theorem c10_span_without_class_raises_keyerror_witness :
    (HocrParser.runEvents (HocrParser.initState 100 50) [] =
        Except.ok (HocrParser.initState 100 50) ∧
      lookupAttr [("title", "bbox 1 2 3 4")] "class" = none ∧
      HocrParser.run
        ([] ++ SaxEvent.startElement "span" [("title", "bbox 1 2 3 4")] ::
          [SaxEvent.charData "x"]) 100 50 = Except.error PyError.keyError) ∧
    (lookupAttr [("class", "ocr_par")] "class" = some "ocr_par" ∧
      ("ocr_par" : String) ≠ "ocr_line" ∧ ("ocr_par" : String) ≠ "ocr_word" ∧
      HocrParser.startElement (HocrParser.initState 0 0) "span"
        [("class", "ocr_par")] = Except.ok (HocrParser.initState 0 0)) :=
  ⟨⟨rfl, by decide,
    c10_span_without_class_raises_keyerror.1 [] [SaxEvent.charData "x"]
      100 50 (HocrParser.initState 100 50) [("title", "bbox 1 2 3 4")] rfl
      (by decide)⟩,
   ⟨by decide, by decide, by decide,
    c10_span_without_class_raises_keyerror.2 (HocrParser.initState 0 0)
      [("class", "ocr_par")] "ocr_par" (by decide) (by decide) (by decide)⟩⟩

/-- C2 counterexample: in `c2evs` the word marker's title "bbox 10 20 30"
(three numbers) makes the whole parse abort with `ValueError` — the word
is not skipped and parsing does not continue to completion, so no story
length exists at all. -/
theorem c2_malformed_bbox_aborts_parse_cex :
    HocrParser.run c2evs 100 50 = Except.error PyError.valueError := by
  decide

/-- C2 (amended): a word marker whose title does not split into exactly
five space-separated tokens (prefix plus four numbers) makes the tuple
unpacking in `_startElement` raise `ValueError`; the exception propagates
out of `Parse`, aborting the parse: no word record is appended and no
document model results. -/
theorem c2_malformed_bbox_raises_valueerror :
    ∀ (evs1 evs2 : List SaxEvent) (left top : ℚ) (st : ParserState)
      (attrs : List (String × String)) (title : String),
      HocrParser.runEvents (HocrParser.initState left top) evs1 = Except.ok st →
      lookupAttr attrs "class" = some "ocr_word" →
      lookupAttr attrs "title" = some title →
      (pySplitSpace title).length ≠ 5 →
      HocrParser.run (evs1 ++ SaxEvent.startElement "span" attrs :: evs2)
        left top = Except.error PyError.valueError := by
  intro evs1 evs2 left top st attrs title h1 hcls htl hlen
  have hse := startElement_bad_title st attrs title hcls htl hlen
  simp only [HocrParser.run, runEvents_append, h1, HocrParser.runEvents,
    HocrParser.processEvent, hse]

/-- C2 witness: the amended behavior at the concrete malformed title
"bbox 10 20 30". -/
theorem c2_malformed_bbox_raises_valueerror_witness :
    HocrParser.runEvents (HocrParser.initState 100 50) [] =
      Except.ok (HocrParser.initState 100 50) ∧
    lookupAttr [("class", "ocr_word"), ("title", "bbox 10 20 30")] "class" =
      some "ocr_word" ∧
    lookupAttr [("class", "ocr_word"), ("title", "bbox 10 20 30")] "title" =
      some "bbox 10 20 30" ∧
    (pySplitSpace "bbox 10 20 30").length ≠ 5 ∧
    HocrParser.run
      ([] ++ SaxEvent.startElement "span"
        [("class", "ocr_word"), ("title", "bbox 10 20 30")] ::
        [SaxEvent.charData "x"]) 100 50 = Except.error PyError.valueError :=
  ⟨rfl, by decide, by decide, by decide,
   c2_malformed_bbox_raises_valueerror [] [SaxEvent.charData "x"] 100 50
     (HocrParser.initState 100 50)
     [("class", "ocr_word"), ("title", "bbox 10 20 30")] "bbox 10 20 30"
     rfl (by decide) (by decide) (by decide)⟩

/-- C4 counterexample: the character data "  Hello   world  " is not
entirely whitespace, so `_charData` appends it verbatim — leading spaces
and internal runs included — and the flattened text is not "Hello world". -/
theorem c4_mixed_whitespace_kept_verbatim_cex :
    parserText (runOr c4evs 0 0) = "  Hello   world  " ∧
    parserText (runOr c4evs 0 0) ≠ "Hello world" := by
  constructor
  · decide
  · decide

/-- C4 (amended): `_charData` normalizes only chunks that are entirely
whitespace — dropped while the current block has had no content, otherwise
collapsed to one space which is suppressed after an existing trailing
space; a chunk containing any non-whitespace character is appended
verbatim, so "  Hello   world  " in a fresh block yields exactly
"  Hello   world  ". -/
theorem c4_char_data_normalization_amended :
    (∀ (st : ParserState) (data : String), pyIsSpace data = true →
      st.hasBlockHadContent = false → HocrParser.charData st data = st) ∧
    (∀ (st : ParserState) (data : String), pyIsSpace data = true →
      st.hasBlockHadContent = true → st.textList.getLast? = some " " →
      HocrParser.charData st data = st) ∧
    (∀ (st : ParserState) (data : String), pyIsSpace data = true →
      st.hasBlockHadContent = true → st.textList.getLast? ≠ some " " →
      HocrParser.charData st data =
        { st with hasBlockHadContent := true,
                  textList := st.textList ++ [" "],
                  textLen := st.textLen + 1 }) ∧
    (∀ (st : ParserState) (data : String), pyIsSpace data = false →
      HocrParser.charData st data =
        { st with hasBlockHadContent := true,
                  textList := st.textList ++ [data],
                  textLen := st.textLen + data.length }) ∧
    parserText (runOr c4evs 0 0) = "  Hello   world  " := by
  refine ⟨?_, ?_, ?_, ?_, by decide⟩
  · intro st data h1 h2
    unfold HocrParser.charData
    rw [if_pos h1, if_pos (by rw [h2]; rfl)]
  · intro st data h1 h2 h3
    unfold HocrParser.charData
    rw [if_pos h1, if_neg (by rw [h2]; decide), if_pos h3]
  · intro st data h1 h2 h3
    unfold HocrParser.charData
    rw [if_pos h1, if_neg (by rw [h2]; decide), if_neg h3]
  · intro st data h1
    unfold HocrParser.charData
    rw [if_neg (by rw [h1]; decide)]

/-- State with one non-space fragment appended. -/
def c4stA : ParserState :=
  { leftCoordOffset := 0, topCoordOffset := 0, textList := ["a"], textLen := 1,
    lines := [], words := [], hasBlockHadContent := true }

/-- State whose last appended fragment is a single space. -/
def c4stSp : ParserState :=
  { leftCoordOffset := 0, topCoordOffset := 0, textList := ["a", " "],
    textLen := 2, lines := [], words := [], hasBlockHadContent := true }

/-- C4 witness: each normalization case at a concrete state and chunk. -/
theorem c4_char_data_normalization_amended_witness :
    (pyIsSpace " " = true ∧
      (HocrParser.initState 0 0).hasBlockHadContent = false ∧
      HocrParser.charData (HocrParser.initState 0 0) " " =
        HocrParser.initState 0 0) ∧
    (pyIsSpace "\n" = true ∧ c4stSp.hasBlockHadContent = true ∧
      c4stSp.textList.getLast? = some " " ∧
      HocrParser.charData c4stSp "\n" = c4stSp) ∧
    (pyIsSpace " " = true ∧ c4stA.hasBlockHadContent = true ∧
      c4stA.textList.getLast? ≠ some " " ∧
      HocrParser.charData c4stA " " =
        { c4stA with hasBlockHadContent := true,
                     textList := c4stA.textList ++ [" "],
                     textLen := c4stA.textLen + 1 }) ∧
    (pyIsSpace "hi" = false ∧
      HocrParser.charData (HocrParser.initState 0 0) "hi" =
        { HocrParser.initState 0 0 with
            hasBlockHadContent := true,
            textList := (HocrParser.initState 0 0).textList ++ ["hi"],
            textLen := (HocrParser.initState 0 0).textLen + "hi".length }) :=
  ⟨⟨by decide, rfl,
    c4_char_data_normalization_amended.1 (HocrParser.initState 0 0) " "
      (by decide) rfl⟩,
   ⟨by decide, rfl, by decide,
    c4_char_data_normalization_amended.2.1 c4stSp "\n" (by decide) rfl
      (by decide)⟩,
   ⟨by decide, rfl, by decide,
    c4_char_data_normalization_amended.2.2.1 c4stA " " (by decide) rfl
      (by decide)⟩,
   ⟨by decide,
    c4_char_data_normalization_amended.2.2.2.1 (HocrParser.initState 0 0)
      "hi" (by decide)⟩⟩

/-- C5 (amended): for every integers L and T (given as the numeric tokens
of the bounding-box title) on a word that is followed by a word with a
strictly greater offset, `pointForOffset` at the word's offset returns the
screen point truncated toward zero: `(int(100 + L/2), int(50 + T/2))`. -/
theorem c5_round_trip_truncated_amended (L T : ℤ) (ls ts title : String)
    (hsplit : pySplitSpace title = ["bbox", ls, ts, "30", "40"])
    (hl : pyParseInt ls = some L) (ht : pyParseInt ts = some T) :
    OcrTextInfo.pointForOffset ⟨0, 0, runOr (c5evs title) 100 50⟩ 0 =
      Except.ok (pyInt (100 + (L : ℚ) / 2), pyInt (50 + (T : ℚ) / 2)) := by
  have h90 : pySplitSpace "bbox 90 90 99 99" =
      ["bbox", "90", "90", "99", "99"] := by decide
  have h90i : pyParseInt "90" = some 90 := by decide
  simp +decide [c5evs, runOr, HocrParser.run, HocrParser.runEvents,
    HocrParser.processEvent, HocrParser.startElement, HocrParser.charData,
    HocrParser.endElement, HocrParser.initState, lookupAttr, hsplit, hl, ht,
    h90, h90i, pyIsSpace, pyIsSpaceChar, IMAGE_RESIZE_FACTOR, List.find?,
    Option.map, List.getLast?, List.append, String.length,
    OcrTextInfo.pointForOffset, pointLoop]

/-- C5 counterexample: with bounding-box left L = 1 (odd), origin
(100, 50) and scale factor 2, the exact point would be (100 + 1/2, 50);
the code converts through `int(...)`, so `pointForOffset` at the word's
offset returns (100, 50), and 100 is not 100 + 1/2. -/
theorem c5_odd_bbox_left_truncated_cex :
    OcrTextInfo.pointForOffset ⟨0, 0, runOr (c5evs "bbox 1 0 9 9") 100 50⟩ 0 =
      Except.ok (100, 50) ∧
    (100 : ℚ) ≠ 100 + (1 : ℚ) / 2 := by
  constructor
  · simp +decide [c5evs, runOr, HocrParser.run, HocrParser.runEvents,
      HocrParser.processEvent, HocrParser.startElement, HocrParser.charData,
      HocrParser.endElement, HocrParser.initState, lookupAttr, pySplitSpace,
      splitSpaceStep, pyParseInt, digitsToNat, digitVal, pyIsSpace,
      pyIsSpaceChar, IMAGE_RESIZE_FACTOR, List.find?, List.foldlM,
      Option.map, Option.bind, List.map, List.foldr, List.asString,
      String.length, List.all, List.isEmpty, List.getLast?, List.append,
      OcrTextInfo.pointForOffset, pointLoop, pyInt]
    norm_num
    decide
  · norm_num

/-- C5 witness: the amended statement at the concrete tokens "15" and "7". -/
theorem c5_round_trip_truncated_amended_witness :
    pySplitSpace "bbox 15 7 30 40" = ["bbox", "15", "7", "30", "40"] ∧
    pyParseInt "15" = some 15 ∧ pyParseInt "7" = some 7 ∧
    OcrTextInfo.pointForOffset
      ⟨0, 0, runOr (c5evs "bbox 15 7 30 40") 100 50⟩ 0 =
      Except.ok (pyInt (100 + ((15 : ℤ) : ℚ) / 2),
        pyInt (50 + ((7 : ℤ) : ℚ) / 2)) :=
  ⟨by decide, by decide, by decide,
   c5_round_trip_truncated_amended 15 7 "15" "7" "bbox 15 7 30 40"
     (by decide) (by decide) (by decide)⟩
